import Mathlib

/-!
Verification of the monophonic synthesizer voice in `src/lib.rs`.

The Rust source computes with `f32`; this development embeds those values as
exact rationals (`ℚ`) for the envelope / state machinery and as reals (`ℝ`)
where the code applies transcendental functions (`sin`, `exp2`).  Every
definition mirrors the corresponding Rust item; the instrumented
`apply_envelope_checked` additionally records whether a division with zero
divisor is ever executed.
-/

namespace RustVstSynth

/-- The five automation parameters, mirroring `struct RustSynthParameters`
(`volume`, `attack`, `decay`, `sustain`, `release`, each an `AtomicFloat`).
The audio path only ever reads them, so they are modelled as plain values. -/
structure RustSynthParameters where
  volume : ℚ
  attack : ℚ
  decay : ℚ
  sustain : ℚ
  release : ℚ
deriving DecidableEq

/-- The voice state, mirroring `struct RustSynth` (minus the shared-pointer
plumbing): sample rate, elapsed time since the last trigger, current MIDI
note, the gate flag `note_on`, and the parameter block. -/
structure RustSynth where
  sample_rate : ℚ
  time : ℚ
  note : Nat
  note_on : Bool
  params : RustSynthParameters
deriving DecidableEq

/-- `impl Default for RustSynth`: the parameter defaults
(volume 0.5, attack 0.01, decay 0.1, sustain 0.5, release 0.1). -/
def default_params : RustSynthParameters :=
  { volume := 1/2, attack := 1/100, decay := 1/10, sustain := 1/2, release := 1/10 }

/-- `impl Default for RustSynth`: sample rate 44100, time 0, note 0, gate off. -/
def default_synth : RustSynth :=
  { sample_rate := 44100, time := 0, note := 0, note_on := false,
    params := default_params }

/-- `RustSynth::time_per_sample`: `1.0 / self.sample_rate`. -/
def time_per_sample (st : RustSynth) : ℚ := 1 / st.sample_rate

/-- `RustSynth::note_on(note, _velocity)`: store the note, raise the gate,
reset the clock.  The velocity argument is accepted and ignored, exactly as
in the source. -/
def note_on (st : RustSynth) (note : Nat) (_velocity : Nat) : RustSynth :=
  { st with note := note, note_on := true, time := 0 }

/-- `RustSynth::note_off(note)`: drop the gate only when the incoming note
matches the stored one; otherwise the state is untouched. -/
def note_off (st : RustSynth) (note : Nat) : RustSynth :=
  if st.note = note then { st with note_on := false } else st

/-- `RustSynth::apply_envelope`: the stateless ADSR evaluation.  Division is
exact rational division here; `apply_envelope_checked` below tracks the
divisors the code actually reaches. -/
def apply_envelope (st : RustSynth) : ℚ :=
  let attack := st.params.attack
  let decay := st.params.decay
  let sustain := st.params.sustain
  let release := st.params.release
  if st.note_on then
    if st.time < attack then
      st.time / attack
    else if st.time < attack + decay then
      1 - (1 - sustain) * (st.time - attack) / decay
    else
      sustain
  else
    if st.time < release then
      sustain * (1 - st.time / release)
    else
      0

/-- Division instrumented to report a zero divisor, used to analyse the
divisions `apply_envelope` executes. -/
def checked_div (a b : ℚ) : Option ℚ :=
  if b = 0 then none else some (a / b)

/-- `RustSynth::apply_envelope` with every executed division routed through
`checked_div`: the result is `none` exactly when the branch the code takes
divides by zero, and `some` of the envelope value otherwise.  The branch
structure is identical to `apply_envelope`. -/
def apply_envelope_checked (st : RustSynth) : Option ℚ :=
  let attack := st.params.attack
  let decay := st.params.decay
  let sustain := st.params.sustain
  let release := st.params.release
  if st.note_on then
    if st.time < attack then
      checked_div st.time attack
    else if st.time < attack + decay then
      (checked_div ((1 - sustain) * (st.time - attack)) decay).map (fun f => 1 - f)
    else
      some sustain
  else
    if st.time < release then
      (checked_div st.time release).map (fun f => sustain * (1 - f))
    else
      some 0

/-- Modelled from the spec (§4.3): the five-phase envelope exactly as the
specification words it — Attack (`gate ∧ time < attack`), Decay
(`gate ∧ attack ≤ time < attack + decay`), Sustain, Release
(`¬gate ∧ time < release`), Silent.  Used to compare the source envelope
against the spec's phase description. -/
def envelope_spec (gate : Bool) (time attack decay sustain release : ℚ) : ℚ :=
  if gate then
    if time < attack then
      time / attack
    else if attack ≤ time ∧ time < attack + decay then
      1 - (1 - sustain) * (time - attack) / decay
    else
      sustain
  else
    if time < release then
      sustain * (1 - time / release)
    else
      0

/-- The value of `note as i8` for a byte `note`: two's-complement
reinterpretation of the low 8 bits. -/
def toI8 (b : Nat) : ℤ :=
  if b % 256 < 128 then (b % 256 : ℤ) else (b % 256 : ℤ) - 256

/-- Wrapping of an integer into the `i8` range `[-128, 127]`, the
release-mode semantics of `i8` subtraction overflow. -/
def wrapI8 (z : ℤ) : ℤ := (z + 128) % 256 - 128

/-- `RustSynth::midi_note_to_freq`:
`((note as i8 - A4_NOTE) as f32 / 12.0).exp2() * A4_FREQ` with
`A4_NOTE = 69`, `A4_FREQ = 440.0`.  The `i8` cast and the wrapping
subtraction are modelled exactly; `exp2` is the real function `2 ^ ·`. -/
noncomputable def midi_note_to_freq (note : Nat) : ℝ :=
  (2 : ℝ) ^ (((wrapI8 (toI8 note - 69) : ℤ) : ℝ) / 12) * 440

/-- `RustSynth::generate_wave`: `(self.time * freq * 2.0 * PI).sin()`. -/
noncomputable def generate_wave (st : RustSynth) : ℝ :=
  Real.sin ((st.time : ℝ) * midi_note_to_freq st.note * 2 * Real.pi)

/-- The per-sample output `wave * envelope * volume` computed inside
`RustSynth::process` when the gate is up. -/
noncomputable def sampleOut (st : RustSynth) : ℝ :=
  generate_wave st * ((apply_envelope st : ℚ) : ℝ) * ((st.params.volume : ℚ) : ℝ)

/-- One iteration of the loop in `RustSynth::process`: when the gate is up,
write `sampleOut` into every output channel at the current sample position,
then advance `time` by the per-sample increment.  The buffer is modelled as
a function from channel index and sample position to the stored value. -/
noncomputable def process_step (per : ℚ) (output_count : Nat)
    (acc : RustSynth × (Nat → Nat → ℝ)) (sample_idx : Nat) :
    RustSynth × (Nat → Nat → ℝ) :=
  let st := acc.1
  let buf :=
    if st.note_on then
      fun buf_idx i =>
        if buf_idx < output_count ∧ i = sample_idx then sampleOut st
        else acc.2 buf_idx i
    else acc.2
  ({ st with time := st.time + per }, buf)

/-- `RustSynth::process`: iterate `process_step` over the sample positions
`0, …, samples - 1`, with the per-sample increment computed once up front,
exactly as the source loop does. -/
noncomputable def process (st : RustSynth) (buf : Nat → Nat → ℝ)
    (samples output_count : Nat) : RustSynth × (Nat → Nat → ℝ) :=
  (List.range samples).foldl (process_step (time_per_sample st) output_count) (st, buf)

/-- The events `RustSynth::process_events` receives: a MIDI event carries
three data bytes; anything else is some other host event. -/
inductive Event where
  | midi (d0 d1 d2 : Nat)
  | other
deriving DecidableEq

/-- The dispatch of a single event inside `RustSynth::process_events`:
status byte 128 is note-off, 144 is note-on, everything else falls through
the wildcard arms. -/
def process_event (st : RustSynth) (e : Event) : RustSynth :=
  match e with
  | .midi d0 d1 d2 =>
    if d0 = 128 then note_off st d1
    else if d0 = 144 then note_on st d1 d2
    else st
  | .other => st

/-- `RustSynth::process_events`: fold the dispatcher over the events in
arrival order. -/
def process_events (st : RustSynth) (events : List Event) : RustSynth :=
  events.foldl process_event st

/-- The parameter block used by the spec's envelope test vector:
attack 0.5, decay 0.2, sustain 0.3, release 0.4 (volume is irrelevant to
the envelope). -/
def testParams : RustSynthParameters :=
  { volume := 1/2, attack := 1/2, decay := 1/5, sustain := 3/10, release := 2/5 }

/-- A voice state holding note 69 with the test-vector parameters, at clock
`t` and gate `g`: the shape of the spec's envelope test inputs. -/
def testState (t : ℚ) (g : Bool) : RustSynth :=
  { sample_rate := 44100, time := t, note := 69, note_on := g, params := testParams }

/-- A voice state whose sustain parameter is 2, outside the intended [0,1]
gain range, which no code path clamps. -/
def sustainTwoState : RustSynth :=
  { sample_rate := 44100, time := 1, note := 60, note_on := true,
    params := { volume := 1/2, attack := 1/2, decay := 1/5, sustain := 2, release := 2/5 } }

/-- A freshly triggered voice (time 0, gate up) whose attack and decay are
both 0: the spec's division-by-zero edge-case input. -/
def zeroAttackState : RustSynth :=
  { sample_rate := 44100, time := 0, note := 69, note_on := true,
    params := { volume := 1/2, attack := 0, decay := 0, sustain := 1/2, release := 1/10 } }

/-- A voice holding note 60 with the gate up, the target of the spec's
mismatched note-off test. -/
def noteSixtyState : RustSynth :=
  { sample_rate := 44100, time := 0, note := 60, note_on := true, params := default_params }

/-- A voice in its release phase (gate down, clock inside the release
window) with the default parameters. -/
def releasePhaseState : RustSynth :=
  { sample_rate := 44100, time := 1/20, note := 69, note_on := false, params := default_params }

theorem process_zero (st : RustSynth) (buf : Nat → Nat → ℝ) (outc : Nat) :
    process st buf 0 outc = (st, buf) := rfl

theorem process_succ (st : RustSynth) (buf : Nat → Nat → ℝ) (n outc : Nat) :
    process st buf (n + 1) outc =
      process_step (time_per_sample st) outc (process st buf n outc) n := by
  simp [process, List.range_succ]

/-- Rendering `n` samples leaves everything but the clock alone and advances
the clock by `n` sample periods. -/
theorem process_fst (st : RustSynth) (buf : Nat → Nat → ℝ) (n outc : Nat) :
    (process st buf n outc).1 = { st with time := st.time + n * time_per_sample st } := by
  induction n with
  | zero => cases st; simp [process_zero]
  | succ n ih =>
    rw [process_succ, process_step, ih]
    simp only []
    congr 1
    push_cast
    ring

/-- The buffer after rendering `n` samples: positions below `n` on channels
below `output_count` carry the voice output for their sample instant when
the gate is up; every other entry holds what the host supplied. -/
theorem process_snd (st : RustSynth) (buf : Nat → Nat → ℝ) (n outc c i : Nat) :
    (process st buf n outc).2 c i =
      if st.note_on = true ∧ c < outc ∧ i < n then
        sampleOut { st with time := st.time + i * time_per_sample st }
      else buf c i := by
  induction n with
  | zero => simp [process_zero]
  | succ n ih =>
    rw [process_succ, process_step]
    simp only [process_fst]
    cases hg : st.note_on with
    | false => simpa [hg] using ih
    | true =>
      simp only [hg, if_true]
      by_cases hc : c < outc
      · by_cases hi : i = n
        · subst hi
          simp [hc, hg]
        · by_cases hilt : i < n
          · simp only [hc, hi, and_false, if_false, true_and]
            rw [ih]
            simp [hg, hc, hilt, Nat.lt_succ_of_lt hilt]
          · have hns : ¬ i < n + 1 := by omega
            simp only [hc, hi, and_false, if_false, true_and]
            rw [ih]
            simp [hg, hc, hilt, hns]
      · simp only [hc, false_and, and_false, if_false]
        rw [ih]
        simp [hc]

/-- For notes in the MIDI range the `i8` cast and wrap are the identity,
so the mapper is exactly the equal-tempered formula. -/
theorem midi_note_to_freq_formula (n : Nat) (hn : n ≤ 127) :
    midi_note_to_freq n = 440 * (2 : ℝ) ^ (((n : ℝ) - 69) / 12) := by
  have h256 : n % 256 = n := Nat.mod_eq_of_lt (by omega)
  have hti : toI8 n = (n : ℤ) := by
    simp [toI8, h256]
    omega
  have hw : wrapI8 ((n : ℤ) - 69) = (n : ℤ) - 69 := by
    unfold wrapI8
    have h1 : (0 : ℤ) ≤ (n : ℤ) - 69 + 128 := by omega
    have h2 : (n : ℤ) - 69 + 128 < 256 := by omega
    rw [Int.emod_eq_of_lt h1 h2]
    ring
  rw [midi_note_to_freq, hti, hw]
  push_cast
  ring

/-- The wrapped exponent byte always lands in the `i8` range. -/
theorem wrapI8_bounds (z : ℤ) : -128 ≤ wrapI8 z ∧ wrapI8 z ≤ 127 := by
  unfold wrapI8
  constructor
  · have := Int.emod_nonneg (z + 128) (by norm_num : (256 : ℤ) ≠ 0)
    omega
  · have := Int.emod_lt_of_pos (z + 128) (by norm_num : (0 : ℤ) < 256)
    omega

/-- As long as the clock is nonnegative, every branch `apply_envelope`
takes divides by a nonzero (indeed strictly positive) parameter: the strict
phase guards keep a zero-divisor branch from being entered.  Hence the
instrumented envelope succeeds and agrees with the plain one. -/
theorem apply_envelope_checked_eq (st : RustSynth) (ht : 0 ≤ st.time) :
    apply_envelope_checked st = some (apply_envelope st) := by
  cases hg : st.note_on with
  | false =>
    by_cases h3 : st.time < st.params.release
    · have hr : 0 < st.params.release := lt_of_le_of_lt ht h3
      simp [apply_envelope_checked, apply_envelope, checked_div, hg, h3, hr.ne']
    · simp [apply_envelope_checked, apply_envelope, hg, h3]
  | true =>
    by_cases h1 : st.time < st.params.attack
    · have ha : 0 < st.params.attack := lt_of_le_of_lt ht h1
      simp [apply_envelope_checked, apply_envelope, checked_div, hg, h1, ha.ne']
    · by_cases h2 : st.time < st.params.attack + st.params.decay
      · have hd : 0 < st.params.decay := by
          have := not_lt.1 h1; linarith
        simp [apply_envelope_checked, apply_envelope, checked_div, hg, h1, h2, hd.ne']
      · simp [apply_envelope_checked, apply_envelope, hg, h1, h2]

/-- C1: the envelope is a stateless function of (gate, time, attack, decay,
sustain, release) with exactly the five phases of the spec, and on the test
vector attack=0.5, decay=0.2, sustain=0.3, release=0.4 it takes the values
0.5 at t=0.25, 0.65 at t=0.6, 0.3 at t=10 (gate up), and 0.15 at t=0.2,
0 at t=0.4 (gate down). -/
theorem envelope_five_phases :
    (∀ st : RustSynth,
      apply_envelope st =
        envelope_spec st.note_on st.time st.params.attack st.params.decay
          st.params.sustain st.params.release) ∧
    apply_envelope (testState (1/4) true) = 1/2 ∧
    apply_envelope (testState (3/5) true) = 13/20 ∧
    apply_envelope (testState 10 true) = 3/10 ∧
    apply_envelope (testState (1/5) false) = 3/20 ∧
    apply_envelope (testState (2/5) false) = 0 := by
  refine ⟨fun st => ?_, ?_, ?_, ?_, ?_, ?_⟩
  · cases hg : st.note_on with
    | false => simp [apply_envelope, envelope_spec, hg]
    | true =>
      by_cases h1 : st.time < st.params.attack
      · simp [apply_envelope, envelope_spec, hg, h1]
      · by_cases h2 : st.time < st.params.attack + st.params.decay
        · simp [apply_envelope, envelope_spec, hg, h1, h2, not_lt.1 h1]
        · simp [apply_envelope, envelope_spec, hg, h1, h2]
  all_goals norm_num [apply_envelope, testState, testParams]

/-- C3 counterexample: the parameters are unclamped, so with sustain = 2 the
sustain phase outputs 2, outside [0, 1]. -/
theorem envelope_escapes_unit_interval :
    apply_envelope sustainTwoState = 2 ∧ ¬ (apply_envelope sustainTwoState ≤ 1) := by
  norm_num [apply_envelope, sustainTwoState]

/-- C3 amended: when the clock is nonnegative and the sustain parameter lies
in [0, 1], the envelope output lies in [0, 1] for every gate flag and every
attack/decay/release value. -/
theorem envelope_range (st : RustSynth) (ht : 0 ≤ st.time)
    (hs0 : 0 ≤ st.params.sustain) (hs1 : st.params.sustain ≤ 1) :
    0 ≤ apply_envelope st ∧ apply_envelope st ≤ 1 := by
  simp only [apply_envelope]
  split_ifs with hg h1 h2 h3
  · have ha : 0 < st.params.attack := lt_of_le_of_lt ht h1
    constructor
    · exact div_nonneg ht ha.le
    · exact (div_le_one ha).2 h1.le
  · have hat : st.params.attack ≤ st.time := not_lt.1 h1
    have hd : 0 < st.params.decay := by linarith
    have hf0 : 0 ≤ (1 - st.params.sustain) * (st.time - st.params.attack) / st.params.decay := by
      apply div_nonneg _ hd.le
      apply mul_nonneg <;> linarith
    have hf1 : (1 - st.params.sustain) * (st.time - st.params.attack) / st.params.decay ≤ 1 := by
      apply (div_le_one hd).2
      nlinarith
    constructor <;> linarith
  · exact ⟨hs0, hs1⟩
  · have hr : 0 < st.params.release := lt_of_le_of_lt ht h3
    have hq0 : 0 ≤ st.time / st.params.release := div_nonneg ht hr.le
    have hq1 : st.time / st.params.release < 1 := (div_lt_one hr).2 h3
    constructor
    · apply mul_nonneg hs0; linarith
    · nlinarith
  · norm_num

/-- C3 witness: the bound instantiated at the default voice state. -/
theorem envelope_range_witness :
    0 ≤ apply_envelope default_synth ∧ apply_envelope default_synth ≤ 1 :=
  envelope_range default_synth (by norm_num [default_synth])
    (by norm_num [default_synth, default_params])
    (by norm_num [default_synth, default_params])

/-- C4 counterexample: with attack = 0, decay = 0, time = 0 and the gate up,
the strict guard `time < attack` fails, so the attack-phase division is
never executed: the instrumented envelope reports no division by zero and
the output is the sustain value 0.5, not NaN. -/
theorem envelope_zero_attack_is_sustain :
    apply_envelope_checked zeroAttackState = some (1/2) ∧
    apply_envelope zeroAttackState = 1/2 := by
  constructor
  · norm_num [apply_envelope_checked, checked_div, zeroAttackState]
  · norm_num [apply_envelope, zeroAttackState]

/-- C4 amended: the envelope has no special-casing for zero parameters, yet
whenever the clock is nonnegative the strict phase guards keep every
executed division away from a zero divisor: the instrumented envelope
always succeeds and returns the plain envelope value. -/
theorem envelope_no_division_by_zero (st : RustSynth) (ht : 0 ≤ st.time) :
    apply_envelope_checked st = some (apply_envelope st) :=
  apply_envelope_checked_eq st ht

/-- C4 witness: the no-division statement at the default voice state. -/
theorem envelope_no_division_by_zero_witness :
    apply_envelope_checked default_synth = some (apply_envelope default_synth) :=
  envelope_no_division_by_zero default_synth (by norm_num [default_synth])

/-- C5: on the MIDI range 0–127 the mapper is the pure equal-tempered map
`440 * 2 ^ ((note - 69) / 12)`; in particular notes 69, 81 and 57 map to
440 Hz, 880 Hz and 220 Hz. -/
theorem midi_note_to_freq_spec (n : Nat) (hn : n ≤ 127) :
    midi_note_to_freq n = 440 * (2 : ℝ) ^ (((n : ℝ) - 69) / 12) ∧
    midi_note_to_freq 69 = 440 ∧
    midi_note_to_freq 81 = 880 ∧
    midi_note_to_freq 57 = 220 := by
  refine ⟨midi_note_to_freq_formula n hn, ?_, ?_, ?_⟩
  · rw [midi_note_to_freq_formula 69 (by norm_num)]
    norm_num
  · rw [midi_note_to_freq_formula 81 (by norm_num)]
    have h : ((((81 : ℕ) : ℝ)) - 69) / 12 = 1 := by norm_num
    rw [h, Real.rpow_one]
    norm_num
  · rw [midi_note_to_freq_formula 57 (by norm_num)]
    have h : ((((57 : ℕ) : ℝ)) - 69) / 12 = ((-1 : ℤ) : ℝ) := by push_cast; norm_num
    rw [h, Real.rpow_intCast]
    norm_num

/-- C5 witness: the mapper contract instantiated at note 69. -/
theorem midi_note_to_freq_spec_witness :
    midi_note_to_freq 69 = 440 * (2 : ℝ) ^ (((69 : ℕ) - 69 : ℝ) / 12) ∧
    midi_note_to_freq 69 = 440 ∧
    midi_note_to_freq 81 = 880 ∧
    midi_note_to_freq 57 = 220 := by
  have h := midi_note_to_freq_spec 69 (by norm_num)
  exact_mod_cast h

/-- C6: note-on stores the note, raises the gate and zeroes the clock, for
every prior state, and the velocity argument changes nothing. -/
theorem note_on_sets_state (st : RustSynth) (n v : Nat) :
    note_on st n v = { st with note := n, note_on := true, time := 0 } ∧
    ∀ w : Nat, note_on st n v = note_on st n w := by
  exact ⟨rfl, fun w => rfl⟩

/-- C7: note-off drops the gate exactly when the incoming note matches the
stored one; on a mismatch the whole state is untouched. -/
theorem note_off_matching_only (st : RustSynth) (n : Nat) :
    (st.note = n → note_off st n = { st with note_on := false }) ∧
    (st.note ≠ n → note_off st n = st) := by
  constructor
  · intro h
    simp [note_off, h]
  · intro h
    simp [note_off, h]

/-- C7 witness: after triggering note 60, a note-off for 61 leaves the state
(and in particular the gate) unchanged. -/
theorem note_off_matching_only_witness :
    note_off noteSixtyState 61 = noteSixtyState :=
  (note_off_matching_only noteSixtyState 61).2 (by decide)

/-- C8: only note-on zeroes the clock, note-off never touches it, and a
render call over `samples` positions advances it by
`samples * (1 / sample_rate)` whatever the gate flag is. -/
theorem time_reset_and_advance :
    (∀ (st : RustSynth) (n v : Nat), (note_on st n v).time = 0) ∧
    (∀ (st : RustSynth) (n : Nat), (note_off st n).time = st.time) ∧
    (∀ (st : RustSynth) (buf : Nat → Nat → ℝ) (samples outc : Nat),
      (process st buf samples outc).1.time = st.time + samples * (1 / st.sample_rate)) := by
  refine ⟨fun st n v => rfl, fun st n => ?_, fun st buf samples outc => ?_⟩
  · unfold note_off
    split_ifs <;> rfl
  · rw [process_fst]
    simp [time_per_sample]

/-- C2: over a render call, every position below the sample count on every
channel below the channel count receives
`sin(2π·frequency(note)·time) · envelope · volume` for that position's time
when the gate is up, and every buffer entry is left exactly as the host
provided it when the gate is down — even in the release phase, where the
envelope is positive (witnessed by `releasePhaseState`). -/
theorem process_writes_iff_gate :
    (∀ (st : RustSynth) (buf : Nat → Nat → ℝ) (samples outc c i : Nat),
      (process st buf samples outc).2 c i =
        if st.note_on = true ∧ c < outc ∧ i < samples then
          Real.sin (2 * Real.pi * midi_note_to_freq st.note *
              ((st.time + i * (1 / st.sample_rate) : ℚ) : ℝ)) *
            ((apply_envelope { st with time := st.time + i * (1 / st.sample_rate) } : ℚ) : ℝ) *
            ((st.params.volume : ℚ) : ℝ)
        else buf c i) ∧
    0 < apply_envelope releasePhaseState ∧
    (∀ buf : Nat → Nat → ℝ, (process releasePhaseState buf 16 2).2 = buf) := by
  refine ⟨fun st buf samples outc c i => ?_, ?_, fun buf => ?_⟩
  · rw [process_snd]
    simp only [time_per_sample]
    split_ifs with h
    · simp only [sampleOut, generate_wave]
      congr 2
      congr 1
      push_cast
      ring
    · rfl
  · norm_num [apply_envelope, releasePhaseState, default_params]
  · funext c i
    rw [process_snd]
    simp [releasePhaseState]

/-- C9: for every input note byte, including out-of-range ones, the mapper
yields a well-defined, strictly positive, finite frequency — the wrapped
`i8` exponent always lies in [-128, 127] — and the per-sample envelope
computation performs no division by zero for a nonnegative clock: degenerate
inputs only propagate as out-of-range values, never as a crash. -/
theorem midi_note_to_freq_total (note : Nat) :
    (∃ e : ℤ, -128 ≤ e ∧ e ≤ 127 ∧ midi_note_to_freq note = 2 ^ ((e : ℝ) / 12) * 440) ∧
    0 < midi_note_to_freq note ∧
    ∀ st : RustSynth, 0 ≤ st.time → (apply_envelope_checked st).isSome = true := by
  refine ⟨⟨wrapI8 (toI8 note - 69), (wrapI8_bounds _).1, (wrapI8_bounds _).2, rfl⟩, ?_, ?_⟩
  · rw [midi_note_to_freq]
    positivity
  · intro st ht
    rw [apply_envelope_checked_eq st ht]
    rfl

/-- C9 witness: instantiated at the out-of-range note byte 200 and at the
default voice state. -/
theorem midi_note_to_freq_total_witness :
    0 < midi_note_to_freq 200 ∧ (apply_envelope_checked default_synth).isSome = true :=
  ⟨(midi_note_to_freq_total 200).2.1,
   (midi_note_to_freq_total 200).2.2 default_synth (by norm_num [default_synth])⟩

/-- C10: the dispatcher acts only on status bytes 128 and 144; any other
MIDI status and any non-MIDI event leave the state unchanged, and a
note-on with velocity 0 is a genuine note-on, not a note-off. -/
theorem event_dispatch_spec (st : RustSynth) (d0 d1 d2 : Nat) :
    (d0 ≠ 128 → d0 ≠ 144 → process_event st (Event.midi d0 d1 d2) = st) ∧
    process_event st Event.other = st ∧
    process_event st (Event.midi 144 d1 0) =
      { st with note := d1, note_on := true, time := 0 } ∧
    process_event st (Event.midi 128 d1 d2) = note_off st d1 := by
  refine ⟨fun h128 h144 => ?_, rfl, ?_, ?_⟩
  · simp [process_event, h128, h144]
  · simp [process_event, note_on]
  · simp [process_event]

/-- C10 witness: a status byte outside {128, 144} is ignored. -/
theorem event_dispatch_spec_witness :
    process_event default_synth (Event.midi 192 60 100) = default_synth :=
  (event_dispatch_spec default_synth 192 60 100).1 (by decide) (by decide)

end RustVstSynth
